import Mathlib

/-!
Shallow embedding of the devsecops-ai detection-and-classification pipeline
(Go sources: pkg/models/findings.go, pkg/scanner/scanner.go, the classifier
and detector in the ai package, pkg/reporter/report.go).

Strings are Lean `String`; Go `float64` scores are modelled as `ℚ` (all the
arithmetic the pipeline performs — sums of 1.0 and 0.5 and one division —
is exact in both). File-system access is modelled by passing the read/parse
outcome of each file as an explicit parameter (`none` = unreadable/missing).
Go's unordered map iteration is modelled by an explicit association list:
one list order stands for one possible iteration order of the map.
-/

namespace DevSecOps

/-- Go `strings.HasPrefix` on rune lists: `isPrefixB sub s` is true when
`sub` is a prefix of `s`. -/
def isPrefixB : List Char → List Char → Bool
  | [], _ => true
  | _ :: _, [] => false
  | a :: as, b :: bs => a == b && isPrefixB as bs

/-- Substring containment on rune lists: `containsList s sub` is true when
`sub` occurs contiguously inside `s` (Go `strings.Contains`). -/
def containsList : List Char → List Char → Bool
  | [], sub => sub.isEmpty
  | c :: t, sub => isPrefixB sub (c :: t) || containsList t sub

/-- Go `strings.Contains(s, sub)`. -/
def goContains (s sub : String) : Bool :=
  containsList s.toList sub.toList

/-- Go `strings.ToLower` (ASCII case folding, which covers every string the
pipeline compares). -/
def goToLower (s : String) : String :=
  String.mk (s.toList.map Char.toLower)

/-- `models.Finding` (pkg/models/findings.go). `time.Time` is opaque to the
pipeline and is modelled as a natural number. -/
structure Finding where
  id : String
  title : String
  description : String
  severity : String
  category : String
  location : String
  codeSnippet : String
  timestamp : Nat
  remediation : String
  confidence : ℚ
deriving DecidableEq

/-- `ai.Rule` (detector source). -/
structure Rule where
  id : String
  name : String
  pattern : String
  severity : String
  category : String
  keywords : List String
  description : String
deriving DecidableEq

/-- `ai.ModelConfig` (classifier source). -/
structure ModelConfig where
  threshold : ℚ
  batchSize : ℤ
  enableCache : Bool
deriving DecidableEq

/-- `ai.CategoryFeatures` (classifier source). -/
structure CategoryFeatures where
  patterns : List String
  keywords : List String
  weights : List ℚ
  threshold : ℚ
deriving DecidableEq

/-- The zero value of `CategoryFeatures`, returned by a Go map read on a
missing key. -/
def CategoryFeatures.zero : CategoryFeatures :=
  { patterns := [], keywords := [], weights := [], threshold := 0 }

/-- `ai.Classifier`. `categoryData` is a Go map `string → CategoryFeatures`;
the list records one iteration order. -/
structure Classifier where
  threshold : ℚ
  categories : List String
  initialized : Bool
  modelConfig : ModelConfig
  categoryData : List (String × CategoryFeatures)
deriving DecidableEq

/-- Association-list read with Go's zero-value-on-miss semantics
(`features := c.categoryData[rule.Category]`). -/
def lookupAssoc (m : List (String × CategoryFeatures)) (k : String) : CategoryFeatures :=
  match m with
  | [] => CategoryFeatures.zero
  | (k', v) :: rest => if k' = k then v else lookupAssoc rest k

/-- Association-list write (`c.categoryData[rule.Category] = features`):
replace the existing binding in place, or append a new one. -/
def updateAssoc (m : List (String × CategoryFeatures)) (k : String) (v : CategoryFeatures) :
    List (String × CategoryFeatures) :=
  match m with
  | [] => [(k, v)]
  | (k', v') :: rest => if k' = k then (k, v) :: rest else (k', v') :: updateAssoc rest k v

/-- One step of `Classifier.loadCategories`: fold a rule into its category's
features (append pattern, append keywords, append the default weight 1.0,
set the threshold to the classifier's global threshold). -/
def foldRule (thr : ℚ) (m : List (String × CategoryFeatures)) (r : Rule) :
    List (String × CategoryFeatures) :=
  updateAssoc m r.category
    { patterns := (lookupAssoc m r.category).patterns ++ [r.pattern]
      keywords := (lookupAssoc m r.category).keywords ++ r.keywords
      weights := (lookupAssoc m r.category).weights ++ [1]
      threshold := thr }

/-- `Classifier.loadCategories`: fold all rules into per-category features. -/
def loadCategories (thr : ℚ) (rules : List Rule) : List (String × CategoryFeatures) :=
  rules.foldl (foldRule thr) []

/-- The pattern half of `Classifier.calculateScore`: for each pattern, if the
finding's code snippet contains the pattern text as a literal substring, add
the pattern's weight (patterns and weights walk in lockstep, as Go's
`Weights[i]` indexing does for the equal-length lists `loadCategories`
builds). -/
def patternScore (snippet : String) : List String → List ℚ → ℚ
  | [], _ => 0
  | _ :: _, [] => 0
  | p :: ps, w :: ws => (if goContains snippet p then w else 0) + patternScore snippet ps ws

/-- The keyword half of `Classifier.calculateScore`: 0.5 for each keyword
contained case-insensitively in the finding's description. -/
def keywordScore (desc : String) : List String → ℚ
  | [] => 0
  | k :: ks =>
      (if goContains (goToLower desc) (goToLower k) then (1 : ℚ) / 2 else 0) + keywordScore desc ks

/-- `Classifier.calculateScore`: raw pattern+keyword score, normalized by
`patternCount + 0.5 * keywordCount` when that maximum is positive. -/
def calculateScore (f : Finding) (features : CategoryFeatures) : ℚ :=
  if ((features.patterns.length : ℚ) + (features.keywords.length : ℚ) * (1 / 2)) > 0 then
    (patternScore f.codeSnippet features.patterns features.weights
        + keywordScore f.description features.keywords)
      / ((features.patterns.length : ℚ) + (features.keywords.length : ℚ) * (1 / 2))
  else
    patternScore f.codeSnippet features.patterns features.weights
      + keywordScore f.description features.keywords

/-- `Classifier.getBestCategory`: sort the (category, score) pairs by score
descending and take the head; on equal scores the pair earlier in iteration
order survives. Returns `("", 0)` on an empty map. -/
def getBestCategory : List (String × ℚ) → String × ℚ
  | [] => ("", 0)
  | [p] => p
  | p :: q :: rest =>
      let b := getBestCategory (q :: rest)
      if b.2 > p.2 then b else p

/-- The score map `Classify` builds: one entry per category, in the map's
iteration order. -/
def scoresFor (c : Classifier) (f : Finding) : List (String × ℚ) :=
  c.categoryData.map (fun p => (p.1, calculateScore f p.2))

/-- `Classifier.Classify`. Go mutates the finding through a pointer and
returns an error; modelled as (finding after the call, error if any). -/
def Classify (c : Classifier) (f : Finding) : Finding × Option String :=
  if c.initialized = false then (f, some "classifier not initialized")
  else if (getBestCategory (scoresFor c f)).2 ≥ c.threshold then
    ({ f with
        category := (getBestCategory (scoresFor c f)).1
        confidence := (getBestCategory (scoresFor c f)).2 }, none)
  else (f, none)

/-- Parsed shapes a rules JSON document can take, as far as the two loaders
can tell them apart: a top-level array of rules, an object with a `rules`
field, or anything else. -/
inductive RulesJson
  | array (rules : List Rule)
  | objectWithRules (rules : List Rule)
  | otherMalformed
deriving DecidableEq

/-- The detector's `loadRules`: `json.Unmarshal` into `[]Rule` accepts only a
top-level array. -/
def parseRulesArray : RulesJson → Except String (List Rule)
  | .array rs => .ok rs
  | .objectWithRules _ => .error "json: cannot unmarshal object into Go value of type []ai.Rule"
  | .otherMalformed => .error "invalid JSON"

/-- The classifier's `loadCategories` decode step: `json.Unmarshal` into a
struct with a `rules` field accepts exactly the object shape. -/
def parseRulesObject : RulesJson → Except String (List Rule)
  | .array _ => .error "json: cannot unmarshal array into Go struct"
  | .objectWithRules rs => .ok rs
  | .otherMalformed => .error "invalid JSON"

/-- The classifier's config file (`config.json`): model settings plus a
category list. -/
structure ClassifierConfigFile where
  modelSettings : ModelConfig
  categories : List String
deriving DecidableEq

/-- The fresh classifier `NewClassifier` builds before initialization:
threshold 0.8, empty category data, `initialized` false. -/
def emptyClassifier : Classifier :=
  { threshold := 4 / 5
    categories := []
    initialized := false
    modelConfig := { threshold := 0, batchSize := 0, enableCache := false }
    categoryData := [] }

/-- `NewClassifier` composed with `Classifier.initialize`. The two file
parameters carry the read/parse outcome of `config.json` and `rules.json`
(`none` = unreadable, `some none` = malformed config). On any failure the
constructor swallows the error and returns the classifier as mutated so
far, with `initialized` still false. -/
def NewClassifier (configFile : Option (Option ClassifierConfigFile))
    (rulesFile : Option RulesJson) : Classifier :=
  match configFile with
  | none => emptyClassifier
  | some none => emptyClassifier
  | some (some cfg) =>
    let c1 : Classifier :=
      { emptyClassifier with
          modelConfig := cfg.modelSettings
          categories := cfg.categories
          threshold := cfg.modelSettings.threshold }
    match rulesFile with
    | none => c1
    | some rj =>
      match parseRulesObject rj with
      | .error _ => c1
      | .ok rules =>
          { c1 with
              categoryData := loadCategories c1.threshold rules
              initialized := true }

/-- `ai.DetectorConfig`. -/
structure DetectorConfig where
  confidence : ℚ
  maxFindings : Nat
deriving DecidableEq

/-- `ai.Detector`. -/
structure Detector where
  confidence : ℚ
  maxFindings : Nat
  initialized : Bool
  rules : List Rule
deriving DecidableEq

/-- The fresh detector `NewDetector` builds before initialization:
confidence 0.75, maxFindings 100, no rules. -/
def defaultDetector : Detector :=
  { confidence := 3 / 4, maxFindings := 100, initialized := false, rules := [] }

/-- The config half of `Detector.initialize`: a missing `config.json` is
skipped (`os.Stat` guard), a malformed one aborts, a parsed one is applied;
on success `initialized` is set. -/
def initDetectorConfigStep (configFile : Option (Option DetectorConfig)) (d : Detector) :
    Detector × Option String :=
  match configFile with
  | none => ({ d with initialized := true }, none)
  | some none => (d, some "failed to load config")
  | some (some cfg) =>
      ({ d with
          confidence := cfg.confidence
          maxFindings := cfg.maxFindings
          initialized := true }, none)

/-- `Detector.initialize`: a missing `rules.json` is skipped (`os.Stat`
guard); a present one must decode as a top-level array or initialization
aborts with `initialized` still false. -/
def initDetector (rulesFile : Option RulesJson) (configFile : Option (Option DetectorConfig))
    (d : Detector) : Detector × Option String :=
  match rulesFile with
  | none => initDetectorConfigStep configFile d
  | some rj =>
    match parseRulesArray rj with
    | .error e => (d, some ("failed to load rules: " ++ e))
    | .ok rs => initDetectorConfigStep configFile { d with rules := rs }

/-- `NewDetector`: on initialization failure it only logs a warning and
returns the detector as mutated so far. -/
def NewDetector (rulesFile : Option RulesJson) (configFile : Option (Option DetectorConfig)) :
    Detector :=
  (initDetector rulesFile configFile defaultDetector).1

/-- `Detector.enhanceFinding`: append the fixed marker to the description and
default the remediation when it is empty. -/
def enhanceFinding (f : Finding) : Finding :=
  let f1 := { f with description := f.description ++ " (AI Verified)" }
  if f1.remediation = "" then
    { f1 with remediation := "AI suggested: Review and sanitize all inputs" }
  else f1

/-- The finding `Detector.detectAdditionalIssues` synthesizes for one rule;
all fields the Go composite literal omits hold their zero values. -/
def mkAdditionalFinding (r : Rule) : Finding :=
  { id := "AI-" ++ r.id
    title := r.name
    description := r.description
    severity := r.severity
    category := r.category
    location := ""
    codeSnippet := ""
    timestamp := 0
    remediation := ""
    confidence := 0 }

/-- `Detector.detectAdditionalIssues`: one synthesized finding per rule with
a non-empty pattern, in rule-load order; the findings argument is accepted
and ignored, exactly as in the source. -/
def detectAdditionalIssues (d : Detector) (_findings : List Finding) : List Finding :=
  d.rules.foldl (fun acc r => if r.pattern ≠ "" then acc ++ [mkAdditionalFinding r] else acc) []

/-- `Detector.prioritizeFindings`: truncate to the first `maxFindings`
elements when the list is longer; no re-sorting. -/
def prioritizeFindings (d : Detector) (findings : List Finding) : List Finding :=
  if findings.length > d.maxFindings then findings.take d.maxFindings else findings

/-- `Detector.Analyze`: enhance each input finding in order, append the
synthesized findings, truncate. Modelled as (returned findings, error). -/
def Analyze (d : Detector) (findings : List Finding) : List Finding × Option String :=
  if d.initialized = false then (findings, some "detector not properly initialized")
  else
    (prioritizeFindings d
      (findings.foldl (fun acc f => acc ++ [enhanceFinding f]) []
        ++ detectAdditionalIssues d findings), none)

/-- `reporter.Stats`. -/
structure Stats where
  totalFindings : Nat
  criticalCount : Nat
  highCount : Nat
  mediumCount : Nat
  lowCount : Nat
  infoCount : Nat
deriving DecidableEq

/-- One iteration of `Reporter.calculateStats`: always count the finding in
the total; bump the severity bucket its string matches, if any. -/
def statsStep (s : Stats) (f : Finding) : Stats :=
  let s := { s with totalFindings := s.totalFindings + 1 }
  if f.severity = "CRITICAL" then { s with criticalCount := s.criticalCount + 1 }
  else if f.severity = "HIGH" then { s with highCount := s.highCount + 1 }
  else if f.severity = "MEDIUM" then { s with mediumCount := s.mediumCount + 1 }
  else if f.severity = "LOW" then { s with lowCount := s.lowCount + 1 }
  else if f.severity = "INFO" then { s with infoCount := s.infoCount + 1 }
  else s

/-- `Reporter.calculateStats`. -/
def calculateStats (findings : List Finding) : Stats :=
  findings.foldl statsStep
    { totalFindings := 0, criticalCount := 0, highCount := 0
      mediumCount := 0, lowCount := 0, infoCount := 0 }

/-- `Scanner.analyzeFile` as shipped: the body is an unimplemented stub that
returns `(nil, nil)` for every path. -/
def analyzeFile (_path : String) : List Finding × Option String :=
  ([], none)

/-- `Scanner.Scan` restricted to its per-file behaviour: the walk appends
each file's `analyzeFile` findings in turn. -/
def Scan (files : List String) : List Finding × Option String :=
  (files.foldl (fun acc p => acc ++ (analyzeFile p).1) [], none)

/-! Concrete data used by witnesses and counterexamples. -/

/-- The first rule of the shipped `configs/rules.json`. -/
def RULE001 : Rule :=
  { id := "RULE-001"
    name := "SQL Injection Detection"
    pattern := "(?i)(SELECT|INSERT|UPDATE|DELETE).*\\$\\x7b"
    severity := "HIGH"
    category := "Injection"
    keywords := ["sql", "database", "query"]
    description := "Potential SQL injection vulnerability detected" }

/-- The second rule of the shipped `configs/rules.json`. -/
def RULE002 : Rule :=
  { id := "RULE-002"
    name := "Hardcoded Credentials"
    pattern := "(?i)(password|secret|key)\\s*=\\s*[\x27\x22]\\w+[\x27\x22]"
    severity := "CRITICAL"
    category := "Security"
    keywords := ["credentials", "password", "secret"]
    description := "Hardcoded credentials detected in code" }

/-- The third rule of the shipped `configs/rules.json`. -/
def RULE003 : Rule :=
  { id := "RULE-003"
    name := "Insecure File Operations"
    pattern := "(?i)os\\.Open\\(.*\\)"
    severity := "MEDIUM"
    category := "FileSystem"
    keywords := ["file", "path", "traversal"]
    description := "Potential file operation without proper validation" }

/-- The shipped `configs/rules.json`: a JSON object whose `rules` field holds
the three rules above (not a top-level array). -/
def shippedRulesJson : RulesJson :=
  .objectWithRules [RULE001, RULE002, RULE003]

/-- A sample raw finding (confidence still 0, remediation empty). -/
def exFinding : Finding :=
  { id := "F-1"
    title := "Possible injection"
    description := "sql injection risk"
    severity := "HIGH"
    category := "Unknown"
    location := "main.go:3"
    codeSnippet := "SELECT"
    timestamp := 5
    remediation := ""
    confidence := 0 }

/-- A single-category rule whose pattern and keyword `exFinding` matches. -/
def exRule : Rule :=
  { id := "RULE-001"
    name := "SQL Injection Detection"
    pattern := "SELECT"
    severity := "HIGH"
    category := "Injection"
    keywords := ["sql"]
    description := "Potential SQL injection vulnerability detected" }

/-- The category features `loadCategories` builds from `[exRule]` at
threshold 0.8. -/
def exFeatures : CategoryFeatures :=
  { patterns := ["SELECT"], keywords := ["sql"], weights := [1], threshold := 4 / 5 }

/-- An initialized classifier holding exactly the `Injection` profile. -/
def exClassifier : Classifier :=
  { threshold := 4 / 5
    categories := ["Injection"]
    initialized := true
    modelConfig := { threshold := 4 / 5, batchSize := 32, enableCache := true }
    categoryData := [("Injection", exFeatures)] }

/-- An initialized detector with the three shipped rules and a small cap. -/
def exDetector : Detector :=
  { confidence := 3 / 4, maxFindings := 2, initialized := true
    rules := [RULE001, RULE002, RULE003] }

/-- A finding whose severity string is none of the five levels. -/
def bogusFinding : Finding :=
  { id := "F-2"
    title := "odd"
    description := "severity outside the enum"
    severity := "SEVERE"
    category := "Misc"
    location := "a.go:1"
    codeSnippet := ""
    timestamp := 0
    remediation := "done"
    confidence := 0 }

/-- One category profile shared by two category names, so the two categories
score identically on `tieFinding`. -/
def tieFeatures : CategoryFeatures :=
  { patterns := ["P"], keywords := [], weights := [1], threshold := 4 / 5 }

/-- A finding whose snippet contains the tied profile's single pattern. -/
def tieFinding : Finding :=
  { id := "T-1"
    title := ""
    description := ""
    severity := "LOW"
    category := "orig"
    location := ""
    codeSnippet := "P"
    timestamp := 0
    remediation := ""
    confidence := 0 }

/-- The tied classifier under the map iteration order B-then-A. -/
def classifierBA : Classifier :=
  { threshold := 4 / 5
    categories := []
    initialized := true
    modelConfig := { threshold := 4 / 5, batchSize := 0, enableCache := false }
    categoryData := [("B", tieFeatures), ("A", tieFeatures)] }

/-- The same classifier state under the map iteration order A-then-B. -/
def classifierAB : Classifier :=
  { threshold := 4 / 5
    categories := []
    initialized := true
    modelConfig := { threshold := 4 / 5, batchSize := 0, enableCache := false }
    categoryData := [("A", tieFeatures), ("B", tieFeatures)] }

/-! Helper lemmas shared by the claim theorems. -/

/-- The scan fold never grows its accumulator, because `analyzeFile` is a
stub returning no findings. -/
lemma scanFold_fixed (files : List String) (acc : List Finding) :
    files.foldl (fun acc p => acc ++ (analyzeFile p).1) acc = acc := by
  induction files generalizing acc with
  | nil => rfl
  | cons p t ih =>
    have hstep : acc ++ (analyzeFile p).1 = acc := by simp [analyzeFile]
    rw [List.foldl_cons, hstep, ih]

/-- Enhancing via the Go append loop is mapping `enhanceFinding`. -/
lemma foldl_enhance (fs acc : List Finding) :
    fs.foldl (fun acc f => acc ++ [enhanceFinding f]) acc = acc ++ fs.map enhanceFinding := by
  induction fs generalizing acc with
  | nil => simp
  | cons f t ih => simp [ih]

/-- The synthesis loop builds exactly one finding per rule with a non-empty
pattern, in rule order. -/
lemma foldl_synth (rules : List Rule) (acc : List Finding) :
    rules.foldl (fun acc r => if r.pattern ≠ "" then acc ++ [mkAdditionalFinding r] else acc) acc
      = acc ++ (rules.filter (fun r => r.pattern ≠ "")).map mkAdditionalFinding := by
  induction rules generalizing acc with
  | nil => simp
  | cons r t ih =>
    rw [List.foldl_cons]
    by_cases h : r.pattern = ""
    · rw [if_neg (by simp [h]), ih]
      simp [List.filter_cons, h]
    · rw [if_pos h, ih]
      simp [List.filter_cons, h]

/-- Truncation: `prioritizeFindings` is `List.take maxFindings`. -/
lemma prioritize_eq_take (d : Detector) (l : List Finding) :
    prioritizeFindings d l = l.take d.maxFindings := by
  unfold prioritizeFindings
  split
  · rfl
  · next h => exact (List.take_of_length_le (by omega)).symm

/-- A category profile whose weights are exactly one default weight 1.0 per
pattern — the shape `loadCategories` maintains. -/
def uniformWeights (ft : CategoryFeatures) : Prop :=
  ft.weights = List.replicate ft.patterns.length 1

/-- Every entry of an updated association list is an old entry or the new
binding. -/
lemma updateAssoc_mem (m : List (String × CategoryFeatures)) (k : String)
    (v : CategoryFeatures) :
    ∀ x ∈ updateAssoc m k v, x ∈ m ∨ x = (k, v) := by
  induction m with
  | nil =>
    intro x hx
    simp [updateAssoc] at hx
    exact Or.inr hx
  | cons y rest ih =>
    intro x hx
    unfold updateAssoc at hx
    by_cases hk : y.1 = k
    · rw [if_pos hk] at hx
      rcases List.mem_cons.mp hx with rfl | hx'
      · exact Or.inr rfl
      · exact Or.inl (List.mem_cons_of_mem _ hx')
    · rw [if_neg hk] at hx
      rcases List.mem_cons.mp hx with rfl | hx'
      · exact Or.inl (List.mem_cons_self _ _)
      · rcases ih x hx' with h | h
        · exact Or.inl (List.mem_cons_of_mem _ h)
        · exact Or.inr h

/-- A map read returns a uniformly-weighted profile whenever every stored
profile is uniformly weighted (the zero value is trivially so). -/
lemma lookupAssoc_uniform (m : List (String × CategoryFeatures))
    (hm : ∀ x ∈ m, uniformWeights x.2) (k : String) :
    uniformWeights (lookupAssoc m k) := by
  induction m with
  | nil => rfl
  | cons y rest ih =>
    unfold lookupAssoc
    by_cases hk : y.1 = k
    · rw [if_pos hk]
      exact hm y (List.mem_cons_self _ _)
    · rw [if_neg hk]
      exact ih (fun x hx => hm x (List.mem_cons_of_mem _ hx))

/-- Folding one rule preserves: every profile is uniformly weighted and has
at least one pattern. -/
lemma foldRule_inv (thr : ℚ) (r : Rule) (m : List (String × CategoryFeatures))
    (hm : ∀ x ∈ m, uniformWeights x.2 ∧ x.2.patterns ≠ []) :
    ∀ x ∈ foldRule thr m r, uniformWeights x.2 ∧ x.2.patterns ≠ [] := by
  intro x hx
  have hu : uniformWeights (lookupAssoc m r.category) :=
    lookupAssoc_uniform m (fun y hy => (hm y hy).1) r.category
  rcases updateAssoc_mem _ _ _ x hx with hold | hnew
  · exact hm x hold
  · subst hnew
    refine ⟨?_, by simp⟩
    show (lookupAssoc m r.category).weights ++ [1]
        = List.replicate ((lookupAssoc m r.category).patterns ++ [r.pattern]).length 1
    rw [hu, List.length_append, List.length_singleton, List.replicate_succ']

/-- Every profile `loadCategories` builds is uniformly weighted and holds at
least one pattern. -/
lemma loadCategories_inv (thr : ℚ) (rules : List Rule) :
    ∀ x ∈ loadCategories thr rules, uniformWeights x.2 ∧ x.2.patterns ≠ [] := by
  suffices h : ∀ m, (∀ x ∈ m, uniformWeights x.2 ∧ x.2.patterns ≠ []) →
      ∀ x ∈ rules.foldl (foldRule thr) m, uniformWeights x.2 ∧ x.2.patterns ≠ [] by
    exact h [] (by simp)
  induction rules with
  | nil => intro m hm; simpa using hm
  | cons r t ih =>
    intro m hm x hx
    rw [List.foldl_cons] at hx
    exact ih (foldRule thr m r) (foldRule_inv thr r m hm) x hx

/-- A fully matching snippet collects the whole default weight of every
pattern. -/
lemma patternScore_all (snip : String) (ps : List String)
    (hall : ∀ p ∈ ps, goContains snip p = true) :
    patternScore snip ps (List.replicate ps.length 1) = (ps.length : ℚ) := by
  induction ps with
  | nil => simp [patternScore]
  | cons p t ih =>
    have hp : goContains snip p = true := hall p (List.mem_cons_self p t)
    have hrest := ih (fun q hq => hall q (List.mem_cons_of_mem p hq))
    simp only [List.length_cons, List.replicate_succ, patternScore, hp, if_true]
    rw [hrest]
    push_cast
    ring

/-- A fully matching description collects 0.5 per keyword. -/
lemma keywordScore_all (desc : String) (ks : List String)
    (hall : ∀ k ∈ ks, goContains (goToLower desc) (goToLower k) = true) :
    keywordScore desc ks = (ks.length : ℚ) * (1 / 2) := by
  induction ks with
  | nil => simp [keywordScore]
  | cons k t ih =>
    have hk : goContains (goToLower desc) (goToLower k) = true :=
      hall k (List.mem_cons_self k t)
    have hrest := ih (fun q hq => hall q (List.mem_cons_of_mem k hq))
    simp only [List.length_cons, keywordScore, hk, if_true]
    rw [hrest]
    push_cast
    ring

/-- The five severity buckets of a `Stats` record. -/
def bucketSum (s : Stats) : Nat :=
  s.criticalCount + s.highCount + s.mediumCount + s.lowCount + s.infoCount

/-- `statsStep` always counts the finding in the total. -/
lemma statsStep_total (s : Stats) (f : Finding) :
    (statsStep s f).totalFindings = s.totalFindings + 1 := by
  simp only [statsStep]
  split_ifs <;> rfl

/-- `statsStep` bumps exactly one bucket when the severity is one of the
five levels. -/
lemma statsStep_buckets (s : Stats) (f : Finding)
    (h : f.severity ∈ (["CRITICAL", "HIGH", "MEDIUM", "LOW", "INFO"] : List String)) :
    bucketSum (statsStep s f) = bucketSum s + 1 := by
  simp only [List.mem_cons, List.not_mem_nil, or_false] at h
  rcases h with h | h | h | h | h <;> simp [statsStep, bucketSum, h] <;> omega

/-- The stats fold adds the list length to the total, and to the bucket sum
when every severity is one of the five levels. -/
lemma calcStats_fold (fs : List Finding) (s0 : Stats)
    (h : ∀ f ∈ fs, f.severity ∈ (["CRITICAL", "HIGH", "MEDIUM", "LOW", "INFO"] : List String)) :
    (fs.foldl statsStep s0).totalFindings = s0.totalFindings + fs.length ∧
    bucketSum (fs.foldl statsStep s0) = bucketSum s0 + fs.length := by
  induction fs generalizing s0 with
  | nil => simp
  | cons f t ih =>
    have hf := h f (List.mem_cons_self f t)
    have ht := ih (statsStep s0 f) (fun g hg => h g (List.mem_cons_of_mem f hg))
    rw [List.foldl_cons]
    refine ⟨?_, ?_⟩
    · rw [ht.1, statsStep_total]
      simp [List.length_cons]
      omega
    · rw [ht.2, statsStep_buckets s0 f hf]
      simp [List.length_cons]
      omega

/-! Claim theorems. -/

/-- C2 (code evidence): the shipped pattern matcher is an unimplemented
stub — `Scanner.analyzeFile` returns no findings and no error for every
path, so `Scan` emits the empty finding list for every file tree; in
particular the file holding `SELECT * FROM t WHERE id=$\x7bid\x7d` yields
zero raw findings, not one HIGH/Injection finding as the spec requires. -/
theorem C2_scanner_emits_nothing :
    (∀ files : List String, Scan files = ([], none)) ∧
    (∀ path : String, analyzeFile path = ([], none)) ∧
    (analyzeFile "query.js").1.length ≠ 1 := by
  refine ⟨fun files => ?_, fun path => rfl, by decide⟩
  unfold Scan
  rw [scanFold_fixed]

/-- C9: invoked before successful initialization, `Classify` and `Analyze`
fail with their not-initialized errors and return the finding(s)
unchanged. -/
theorem C9_not_initialized (c : Classifier) (d : Detector) (f : Finding)
    (fs : List Finding) (hc : c.initialized = false) (hd : d.initialized = false) :
    Classify c f = (f, some "classifier not initialized") ∧
    Analyze d fs = (fs, some "detector not properly initialized") := by
  constructor
  · simp [Classify, hc]
  · simp [Analyze, hd]

/-- C9 witness: the fresh (never-initialized) classifier and detector at a
concrete finding. -/
theorem C9_not_initialized_witness :
    Classify emptyClassifier exFinding = (exFinding, some "classifier not initialized") ∧
    Analyze defaultDetector [exFinding] = ([exFinding], some "detector not properly initialized") :=
  C9_not_initialized emptyClassifier defaultDetector exFinding [exFinding] rfl rfl

/-- C6: the enhancer appends the fixed marker to the description, defaults
the remediation exactly when it is empty, and touches no other field; the
synthesis step emits one finding per loaded rule with a non-empty pattern —
independent of the input findings, hence with no deduplication against real
matches — whose id, title, description, severity and category come from the
rule. -/
theorem C6_enhance_and_synthesize :
    (∀ f : Finding,
      (enhanceFinding f).description = f.description ++ " (AI Verified)" ∧
      (enhanceFinding f).remediation =
        (if f.remediation = "" then "AI suggested: Review and sanitize all inputs"
          else f.remediation) ∧
      (enhanceFinding f).id = f.id ∧ (enhanceFinding f).title = f.title ∧
      (enhanceFinding f).severity = f.severity ∧ (enhanceFinding f).category = f.category ∧
      (enhanceFinding f).location = f.location ∧
      (enhanceFinding f).codeSnippet = f.codeSnippet ∧
      (enhanceFinding f).timestamp = f.timestamp ∧
      (enhanceFinding f).confidence = f.confidence) ∧
    (∀ (d : Detector) (fs fs' : List Finding),
      detectAdditionalIssues d fs
          = (d.rules.filter (fun r => r.pattern ≠ "")).map mkAdditionalFinding ∧
      detectAdditionalIssues d fs = detectAdditionalIssues d fs') ∧
    (∀ r : Rule,
      (mkAdditionalFinding r).id = "AI-" ++ r.id ∧
      (mkAdditionalFinding r).title = r.name ∧
      (mkAdditionalFinding r).description = r.description ∧
      (mkAdditionalFinding r).severity = r.severity ∧
      (mkAdditionalFinding r).category = r.category ∧
      (mkAdditionalFinding r).confidence = 0) := by
  refine ⟨fun f => ?_, fun d fs fs' => ?_, fun r => ?_⟩
  · unfold enhanceFinding
    by_cases h : f.remediation = "" <;> simp [h]
  · unfold detectAdditionalIssues
    rw [foldl_synth]
    simp
  · exact ⟨rfl, rfl, rfl, rfl, rfl, rfl⟩

/-- C3 counterexample: with the rules and config sources both unreadable
(`os.Stat` fails), the detector does not abort — it reports itself
initialized, holds an empty rule set, and `Analyze` proceeds without
error. -/
theorem C3_missing_source_no_abort :
    (NewDetector none none).initialized = true ∧
    (NewDetector none none).rules = [] ∧
    (Analyze (NewDetector none none) [exFinding]).2 = none := by
  decide

/-- C3 amended: a malformed (present but undecodable) rules source makes
initialization fail, but the constructors swallow the error instead of
aborting: the component comes back with `initialized` still false and its
entry point then returns an error leaving the findings unchanged. A missing
detector source is skipped outright and the detector proceeds, initialized,
on an empty rule set. -/
theorem C3_malformed_uninitializes (rj : RulesJson) (cf : Option (Option DetectorConfig))
    (cfg : ClassifierConfigFile) (fs : List Finding) (f : Finding)
    (hA : ∀ rs, rj ≠ RulesJson.array rs) (hO : ∀ rs, rj ≠ RulesJson.objectWithRules rs) :
    ((NewDetector (some rj) cf).initialized = false ∧
      Analyze (NewDetector (some rj) cf) fs = (fs, some "detector not properly initialized")) ∧
    ((NewClassifier (some (some cfg)) (some rj)).initialized = false ∧
      Classify (NewClassifier (some (some cfg)) (some rj)) f
        = (f, some "classifier not initialized")) ∧
    ((NewDetector none none).initialized = true ∧ (NewDetector none none).rules = []) := by
  cases rj with
  | array rs => exact absurd rfl (hA rs)
  | objectWithRules rs => exact absurd rfl (hO rs)
  | otherMalformed =>
    refine ⟨⟨rfl, ?_⟩, ⟨rfl, ?_⟩, rfl, rfl⟩
    · simp [Analyze, NewDetector, initDetector, parseRulesArray, defaultDetector]
    · simp [Classify, NewClassifier, parseRulesObject, emptyClassifier]

/-- C3 amended witness: a malformed rules document at concrete inputs. -/
theorem C3_malformed_uninitializes_witness :
    (NewDetector (some RulesJson.otherMalformed) none).initialized = false ∧
    Analyze (NewDetector (some RulesJson.otherMalformed) none) [exFinding]
      = ([exFinding], some "detector not properly initialized") :=
  ⟨((C3_malformed_uninitializes RulesJson.otherMalformed none
      { modelSettings := { threshold := 4 / 5, batchSize := 0, enableCache := false },
        categories := [] } [exFinding] exFinding
      (fun rs h => by cases h) (fun rs h => by cases h)).1).1,
   ((C3_malformed_uninitializes RulesJson.otherMalformed none
      { modelSettings := { threshold := 4 / 5, batchSize := 0, enableCache := false },
        categories := [] } [exFinding] exFinding
      (fun rs h => by cases h) (fun rs h => by cases h)).1).2⟩

/-- C8 counterexample: a finding whose severity string is not one of the
five levels is counted in the total but in no severity bucket, so the five
counts do not sum to the total. -/
theorem C8_unknown_severity_counterexample :
    (calculateStats [bogusFinding]).totalFindings = 1 ∧
    (calculateStats [bogusFinding]).criticalCount + (calculateStats [bogusFinding]).highCount
        + (calculateStats [bogusFinding]).mediumCount + (calculateStats [bogusFinding]).lowCount
        + (calculateStats [bogusFinding]).infoCount
      ≠ (calculateStats [bogusFinding]).totalFindings := by
  decide

/-- C1 counterexample: two iteration orders of the same category map (a
genuine tie between categories A and B) make `Classify` pick different
categories; under the B-then-A order the winner is B even though the
lexicographically smallest tied name is A. -/
theorem C1_tiebreak_counterexample :
    List.Perm classifierBA.categoryData classifierAB.categoryData ∧
    calculateScore tieFinding tieFeatures = 1 ∧
    (Classify classifierBA tieFinding).1.category = "B" ∧
    (Classify classifierAB tieFinding).1.category = "A" ∧
    "B" ≠ "A" := by
  refine ⟨List.Perm.swap _ _ _, ?_, ?_, ?_, by decide⟩ <;>
    norm_num [Classify, classifierBA, classifierAB, scoresFor, getBestCategory, calculateScore,
      patternScore, keywordScore, tieFinding, tieFeatures, goContains, containsList, isPrefixB]

/-- C10: decoding an object-shaped rules document (the shape of the shipped
`configs/rules.json`) into a top-level rule array fails, so the detector
stays uninitialized and every later `Analyze` call returns the
not-initialized error with the findings unchanged — while the classifier's
object-shaped decoder accepts exactly that document. -/
theorem C10_rules_shape_mismatch (rs : List Rule) (cf : Option (Option DetectorConfig))
    (fs : List Finding) (cfg : ClassifierConfigFile) :
    parseRulesArray (RulesJson.objectWithRules rs)
        = Except.error "json: cannot unmarshal object into Go value of type []ai.Rule" ∧
    (NewDetector (some (RulesJson.objectWithRules rs)) cf).initialized = false ∧
    Analyze (NewDetector (some (RulesJson.objectWithRules rs)) cf) fs
      = (fs, some "detector not properly initialized") ∧
    parseRulesObject (RulesJson.objectWithRules rs) = Except.ok rs ∧
    shippedRulesJson = RulesJson.objectWithRules [RULE001, RULE002, RULE003] ∧
    (NewClassifier (some (some cfg)) (some shippedRulesJson)).initialized = true := by
  refine ⟨rfl, rfl, ?_, rfl, rfl, ?_⟩
  · simp [Analyze, NewDetector, initDetector, parseRulesArray, defaultDetector]
  · simp [NewClassifier, shippedRulesJson, parseRulesObject]

/-- C5: on an initialized classifier, `Classify` overwrites exactly the
category and confidence when the best score reaches the threshold, returns
the finding untouched otherwise, and in both cases leaves every other field
unchanged. -/
theorem C5_classify_frame (c : Classifier) (f : Finding) (h : c.initialized = true) :
    (c.threshold ≤ (getBestCategory (scoresFor c f)).2 →
      Classify c f =
        ({ f with
            category := (getBestCategory (scoresFor c f)).1
            confidence := (getBestCategory (scoresFor c f)).2 }, none)) ∧
    (¬ c.threshold ≤ (getBestCategory (scoresFor c f)).2 → Classify c f = (f, none)) ∧
    ((Classify c f).1.id = f.id ∧ (Classify c f).1.title = f.title ∧
      (Classify c f).1.description = f.description ∧ (Classify c f).1.severity = f.severity ∧
      (Classify c f).1.location = f.location ∧ (Classify c f).1.codeSnippet = f.codeSnippet ∧
      (Classify c f).1.timestamp = f.timestamp ∧ (Classify c f).1.remediation = f.remediation) := by
  have hni : ¬ c.initialized = false := by simp [h]
  unfold Classify
  rw [if_neg hni]
  split_ifs with hth
  · exact ⟨fun _ => rfl, fun hcon => absurd hth hcon, by simp⟩
  · exact ⟨fun hle => absurd hle hth, fun _ => rfl, by simp⟩

/-- C5 witness: the sample classifier reassigns `exFinding` to Injection
with confidence 1 and alters no other field. -/
theorem C5_classify_frame_witness :
    exClassifier.threshold ≤ (getBestCategory (scoresFor exClassifier exFinding)).2 ∧
    Classify exClassifier exFinding =
      ({ exFinding with
          category := (getBestCategory (scoresFor exClassifier exFinding)).1
          confidence := (getBestCategory (scoresFor exClassifier exFinding)).2 }, none) ∧
    (Classify exClassifier exFinding).1.severity = exFinding.severity := by
  have hle : exClassifier.threshold ≤ (getBestCategory (scoresFor exClassifier exFinding)).2 := by
    norm_num [exClassifier, exFinding, exFeatures, scoresFor, getBestCategory, calculateScore,
      patternScore, keywordScore, goContains, goToLower, containsList, isPrefixB]
  have h := C5_classify_frame exClassifier exFinding rfl
  exact ⟨hle, h.1 hle, h.2.2.2.2.2.1⟩

/-- C7: on an initialized detector the output is the enhanced originals (in
input order) followed by the synthesized findings (in rule order), truncated
to the first `maxFindings` elements with no re-sorting; when the cap is
smaller than the concatenation the output length is exactly the cap. -/
theorem C7_concat_truncate (d : Detector) (fs : List Finding) (h : d.initialized = true) :
    Analyze d fs
      = ((fs.map enhanceFinding ++ detectAdditionalIssues d fs).take d.maxFindings, none) ∧
    (d.maxFindings < (fs.map enhanceFinding ++ detectAdditionalIssues d fs).length →
      (Analyze d fs).1.length = d.maxFindings) := by
  have hni : ¬ d.initialized = false := by simp [h]
  have h1 : Analyze d fs
      = ((fs.map enhanceFinding ++ detectAdditionalIssues d fs).take d.maxFindings, none) := by
    unfold Analyze
    rw [if_neg hni, prioritize_eq_take, foldl_enhance, List.nil_append]
  refine ⟨h1, fun hlt => ?_⟩
  rw [h1]
  simp only [List.length_take]
  omega

/-- C7 witness: three rules loaded, cap 2, no original findings — the output
is the first two synthesized findings. -/
theorem C7_concat_truncate_witness :
    Analyze exDetector []
      = ((List.map enhanceFinding [] ++ detectAdditionalIssues exDetector []).take 2, none) ∧
    (Analyze exDetector []).1.length = 2 := by
  have h := C7_concat_truncate exDetector [] rfl
  exact ⟨h.1, h.2 (by decide)⟩

/-- C8 amended: the total always equals the list length, and when every
finding's severity is one of the five levels the five bucket counts sum to
the total (a finding with any other severity string is counted in the total
only, as the counterexample shows). -/
theorem C8_stats_projection (fs : List Finding)
    (h : ∀ f ∈ fs, f.severity ∈ (["CRITICAL", "HIGH", "MEDIUM", "LOW", "INFO"] : List String)) :
    (calculateStats fs).totalFindings = fs.length ∧
    bucketSum (calculateStats fs) = (calculateStats fs).totalFindings := by
  have h2 := calcStats_fold fs
    { totalFindings := 0, criticalCount := 0, highCount := 0
      mediumCount := 0, lowCount := 0, infoCount := 0 } h
  unfold calculateStats
  refine ⟨?_, ?_⟩
  · rw [h2.1]
    simp
  · rw [h2.1, h2.2]
    simp [bucketSum]

/-- C8 amended witness: one HIGH finding. -/
theorem C8_stats_projection_witness :
    (calculateStats [exFinding]).totalFindings = 1 ∧
    bucketSum (calculateStats [exFinding]) = (calculateStats [exFinding]).totalFindings :=
  C8_stats_projection [exFinding] (by decide)

/-- C4: any category profile built by `loadCategories` (hence with the
default weight 1.0 on each of its patterns), scored against a finding whose
snippet contains every pattern string and whose description contains every
keyword case-insensitively, normalizes to exactly 1. -/
theorem C4_full_match_scores_one (thr : ℚ) (rules : List Rule) (cat : String)
    (ft : CategoryFeatures) (f : Finding)
    (hmem : (cat, ft) ∈ loadCategories thr rules)
    (hpat : ∀ p ∈ ft.patterns, goContains f.codeSnippet p = true)
    (hkw : ∀ k ∈ ft.keywords, goContains (goToLower f.description) (goToLower k) = true) :
    calculateScore f ft = 1 := by
  obtain ⟨huw, hne⟩ := loadCategories_inv thr rules (cat, ft) hmem
  have hP : (1 : ℚ) ≤ (ft.patterns.length : ℚ) := by
    have h1 : 1 ≤ ft.patterns.length := List.length_pos.mpr hne
    exact_mod_cast h1
  have hK : (0 : ℚ) ≤ (ft.keywords.length : ℚ) * (1 / 2) := by positivity
  have hmax : ((ft.patterns.length : ℚ) + (ft.keywords.length : ℚ) * (1 / 2)) > 0 := by
    linarith
  unfold calculateScore
  rw [if_pos hmax, huw, patternScore_all f.codeSnippet ft.patterns hpat,
    keywordScore_all f.description ft.keywords hkw]
  exact div_self (ne_of_gt hmax)

/-- C4 witness: the profile `loadCategories` builds from the single sample
rule, against the sample finding, scores exactly 1. -/
theorem C4_full_match_scores_one_witness :
    calculateScore exFinding exFeatures = 1 := by
  refine C4_full_match_scores_one (4 / 5) [exRule] "Injection" exFeatures exFinding ?_ ?_ ?_
  · simp [loadCategories, foldRule, lookupAssoc, updateAssoc, CategoryFeatures.zero,
      exRule, exFeatures]
  · intro p hp
    simp only [exFeatures, List.mem_singleton] at hp
    subst hp
    decide
  · intro k hk
    simp only [exFeatures, List.mem_singleton] at hk
    subst hk
    decide

/-- C1 amended: for a fixed iteration order of the category-score map the
selection is a function of that order (so two runs over the same order
agree), and the winner is the first entry in iteration order achieving the
maximum score — ties are broken by iteration position, not by
lexicographically smallest name. -/
theorem C1_first_max_tiebreak (scores : List (String × ℚ)) (h : scores ≠ []) :
    getBestCategory scores ∈ scores ∧
    (∀ p ∈ scores, p.2 ≤ (getBestCategory scores).2) ∧
    ∃ i, ∃ hi : i < scores.length,
      scores.get ⟨i, hi⟩ = getBestCategory scores ∧
      ∀ j, ∀ hj : j < scores.length, j < i →
        (scores.get ⟨j, hj⟩).2 < (getBestCategory scores).2 := by
  induction scores with
  | nil => exact absurd rfl h
  | cons p rest ih =>
    cases rest with
    | nil =>
      refine ⟨by simp [getBestCategory], ?_, 0, by simp, by simp [getBestCategory], ?_⟩
      · intro q hq
        rcases List.mem_singleton.mp hq with rfl
        simp [getBestCategory]
      · intro j hj hj0
        omega
    | cons q rest' =>
      obtain ⟨hmem, hle, i, hi, hget, hfirst⟩ := ih (by simp)
      by_cases hgt : (getBestCategory (q :: rest')).2 > p.2
      · have hg : getBestCategory (p :: q :: rest') = getBestCategory (q :: rest') := by
          simp [getBestCategory, hgt]
        rw [hg]
        refine ⟨List.mem_cons_of_mem _ hmem, ?_, i + 1, by simpa using hi, ?_, ?_⟩
        · intro x hx
          rcases List.mem_cons.mp hx with rfl | hx'
          · exact le_of_lt hgt
          · exact hle x hx'
        · simpa using hget
        · intro j hj hlt
          cases j with
          | zero => simpa using hgt
          | succ j' =>
            have hj' : j' < (q :: rest').length := by simpa using hj
            have := hfirst j' hj' (by omega)
            simpa using this
      · have hg : getBestCategory (p :: q :: rest') = p := by
          simp [getBestCategory, hgt]
        rw [hg]
        refine ⟨List.mem_cons_self _ _, ?_, 0, by simp, by simp, ?_⟩
        · intro x hx
          rcases List.mem_cons.mp hx with rfl | hx'
          · exact le_refl _
          · exact le_trans (hle x hx') (not_lt.mp hgt)
        · intro j hj hlt
          omega

/-- C1 amended witness: on the tied two-entry order B-then-A the winner is
the first entry, B. -/
theorem C1_first_max_tiebreak_witness :
    getBestCategory [("B", (1 : ℚ)), ("A", 1)] ∈ [(("B" : String), (1 : ℚ)), ("A", 1)] ∧
    getBestCategory [("B", (1 : ℚ)), ("A", 1)] = ("B", 1) := by
  refine ⟨(C1_first_max_tiebreak [("B", (1 : ℚ)), ("A", 1)] (by simp)).1, ?_⟩
  norm_num [getBestCategory]

end DevSecOps
